import Mathlib

/-!
Shallow embedding of the generative-art simulation core of the
struwegstudio repository: per-frame parameter modulators, chaotic-map
(de Jong style) attractor kernels, the wave-field kernel, the spherical
point-cloud generator, the scroll normalizer, and the weak-perspective
projector.  JavaScript numbers are modelled as real numbers; every
definition is translated from the source files.
-/

noncomputable section

namespace Struweg

/-- Per-frame attractor coefficients of the continuous-curve variant
(`animate` in the AttractorCurve file): base constants 1.4, -2.3, 2.4,
-2.1, modulated by scroll influence `scrollDepth * 0.2`, session
influence `min (sessionTime / 120) 1 * 0.1`, and absolute-time drift
terms `sin time * 0.05` and `cos (time * 0.8) * 0.08`. -/
def curveCoeffs (scrollDepth sessionTime time : ℝ) : ℝ × ℝ × ℝ × ℝ :=
  let baseA : ℝ := 1.4
  let baseB : ℝ := -2.3
  let baseC : ℝ := 2.4
  let baseD : ℝ := -2.1
  let scrollInfluence := scrollDepth * 0.2
  let timeInfluence := min (sessionTime / 120) 1 * 0.1
  let drift := Real.sin time * 0.05
  (baseA + scrollInfluence + drift,
   baseB + timeInfluence,
   baseC - scrollInfluence * 0.2,
   baseD + Real.cos (time * 0.8) * 0.08)

/-- Attractor coefficients computed in the WebGL vertex shader
(`vertexShaderSource`): `a = 1.4 + scroll*0.2 + sin(time*0.5)*0.05`,
`b = -2.3 + session*0.1`, `c = 2.4 - scroll*0.15`,
`d = -2.1 + cos(time*0.3)*0.08`. -/
def shaderCoeffs (scroll session time : ℝ) : ℝ × ℝ × ℝ × ℝ :=
  (1.4 + scroll * 0.2 + Real.sin (time * 0.5) * 0.05,
   -2.3 + session * 0.1,
   2.4 - scroll * 0.15,
   -2.1 + Real.cos (time * 0.3) * 0.08)

/-- The `session` uniform passed to the shader each frame:
`Math.min(sessionTime / 60, 1)`. -/
def shaderSession (sessionTime : ℝ) : ℝ := min (sessionTime / 60) 1

/-- The direct-iteration target of the de Jong style attractor
recurrence, as computed in `AttractorCurve.update` and in each
`PathTracer.update` substep:
`newX = sin(a*y) - cos(b*x)`, `newY = sin(c*x) - cos(d*y)`. -/
def attractorTarget (a b c d : ℝ) (p : ℝ × ℝ) : ℝ × ℝ :=
  (Real.sin (a * p.2) - Real.cos (b * p.1),
   Real.sin (c * p.1) - Real.cos (d * p.2))

/-- State of one `PathTracer` entity: current position and the previous
position recorded at the start of each substep. -/
structure TracerState where
  x : ℝ
  y : ℝ
  prevX : ℝ
  prevY : ℝ

/-- One substep of `PathTracer.update`: record prev, compute the
direct-iteration target from the current state, move the fraction
`speedFactor` toward it. -/
def tracerSubstep (a b c d speedFactor : ℝ) (s : TracerState) : TracerState :=
  let target := attractorTarget a b c d (s.x, s.y)
  { x := s.x + (target.1 - s.x) * speedFactor
    y := s.y + (target.2 - s.y) * speedFactor
    prevX := s.x
    prevY := s.y }

/-- The substep loop of `PathTracer.update`, run `n` times. -/
def tracerLoop (a b c d speedFactor : ℝ) : ℕ → TracerState → TracerState
  | 0, s => s
  | n + 1, s => tracerLoop a b c d speedFactor n (tracerSubstep a b c d speedFactor s)

/-- `PathTracer.update(a, b, c, d, deltaTime)`: 5 substeps with combined
fraction `speedFactor = base * (deltaTime / 16.666) / substeps`, where
`base` is 0.3 in the dots variant and 0.08 in the glow variant. -/
def PathTracer.update (base a b c d deltaTime : ℝ) (s : TracerState) : TracerState :=
  let speedFactor := base * (deltaTime / 16.666) / 5
  tracerLoop a b c d speedFactor 5 s

/-- `PathTracer` constructor: `phase = (index / total) * PI * 2`,
position `(cos(phase), sin(phase))` scaled by the dispersion constant
(0.5 in the dots variant, 0.1 in the glow variant); prev mirrors it. -/
def PathTracer.init (disp index total : ℝ) : TracerState :=
  let phase := index / total * Real.pi * 2
  { x := Real.cos phase * disp
    y := Real.sin phase * disp
    prevX := Real.cos phase * disp
    prevY := Real.sin phase * disp }

/-- State of the `AttractorCurve`: the trailing point list and the
current position (initially `(0.1, 0.1)` with `maxPoints = 3000`). -/
structure CurveState where
  points : List (ℝ × ℝ)
  x : ℝ
  y : ℝ

/-- `AttractorCurve.update`: direct iteration — the state jumps to the
target, which is pushed onto the trail; the oldest point is shifted out
when the trail exceeds `maxPoints = 3000`. -/
def AttractorCurve.update (a b c d : ℝ) (s : CurveState) : CurveState :=
  let target := attractorTarget a b c d (s.x, s.y)
  let pts := s.points ++ [target]
  { points := if pts.length > 3000 then pts.tail else pts
    x := target.1
    y := target.2 }

/-- The combined per-substep fraction
`speedFactor = base * (deltaTime / 16.666) / substeps` with
`substeps = 5`. -/
def substepK (base deltaTime : ℝ) : ℝ := base * (deltaTime / 16.666) / 5

/-- Modelled from the spec: the damped-integration substep as the spec
words it — compute the direct-iteration target `(newX, newY)` and move
the entity a fraction `k` toward it, `x += (newX - x) * k`. Used to
compare `PathTracer.update` against the spec sentence. -/
def dampedSubstepSpec (a b c d k : ℝ) (p : ℝ × ℝ) : ℝ × ℝ :=
  (p.1 + ((Real.sin (a * p.2) - Real.cos (b * p.1)) - p.1) * k,
   p.2 + ((Real.sin (c * p.1) - Real.cos (d * p.2)) - p.2) * k)

/-- Euclidean distance between two points of the plane. -/
def dist2 (p q : ℝ × ℝ) : ℝ :=
  Real.sqrt ((p.1 - q.1) ^ 2 + (p.2 - q.2) ^ 2)

/-- The square `[-2, 2] × [-2, 2]` in which chaotic-map positions live. -/
def inSquare (p : ℝ × ℝ) : Prop :=
  -2 ≤ p.1 ∧ p.1 ≤ 2 ∧ -2 ≤ p.2 ∧ p.2 ≤ 2

/-- Frame-indexed trajectory of one tracer: frame `n` applies
`PathTracer.update` with that frame's coefficients and delta time. -/
def tracerTraj (coeffs : ℕ → ℝ × ℝ × ℝ × ℝ) (base : ℝ) (dts : ℕ → ℝ)
    (s : TracerState) : ℕ → TracerState
  | 0 => s
  | n + 1 =>
      let c := coeffs n
      PathTracer.update base c.1 c.2.1 c.2.2.1 c.2.2.2 (dts n)
        (tracerTraj coeffs base dts s n)

/-- Per-frame symmetry count of the curve variant:
`Math.floor(3 + scrollDepth * 2 + timeInfluence * 2)` with
`timeInfluence = Math.min(sessionTime / 120, 1) * 0.1`. -/
def symmetryCurve (scrollDepth sessionTime : ℝ) : ℤ :=
  ⌊3 + scrollDepth * 2 + min (sessionTime / 120) 1 * 0.1 * 2⌋

/-- Per-frame symmetry count of the glow-tracer variant:
`Math.floor(4 + scrollDepth * 4 + timeInfluence * 3)` with
`timeInfluence = Math.min(sessionTime / 60, 1) * 0.2`. -/
def symmetryGlow (scrollDepth sessionTime : ℝ) : ℤ :=
  ⌊4 + scrollDepth * 4 + min (sessionTime / 60) 1 * 0.2 * 3⌋

/-- Symmetry count of the dots variant, locked to 8. -/
def symmetryDots : ℤ := 8

/-- `handleScroll`, shared by every variant:
`height = scrollHeight - clientHeight`;
`scrolled = height > 0 ? winScroll / height : 0`. -/
def scrollDepthOf (scrollTop scrollHeight clientHeight : ℝ) : ℝ :=
  let height := scrollHeight - clientHeight
  if height > 0 then scrollTop / height else 0

/-- `GRID_SIZE = 80` in the wave-field component. -/
def GRID_SIZE : ℝ := 80

/-- Cell size derived from the viewport:
`Math.min(width, height) / GRID_SIZE * 0.8`. -/
def cellOf (width height : ℝ) : ℝ := min width height / GRID_SIZE * 0.8

/-- Core wave function of `draw` in the wave-field component: vertical
displacement of grid point `(x, y)` for frequency `freq`, amplitude
`amp` and time `t`. -/
def waveZ (x y cell freq amp t : ℝ) : ℝ :=
  let displacementX := (x - GRID_SIZE / 2) * cell
  let displacementY := (y - GRID_SIZE / 2) * cell
  let wave1 := Real.sin (displacementX * 0.05 * freq + t * 0.05)
  let wave2 := Real.cos (displacementY * 0.05 * freq + t * 0.03)
  let wave3 := Real.sin ((displacementX + displacementY) * 0.02 * freq + t * 0.07)
  (wave1 + wave2 + wave3) * amp

/-- `colorFactor = (zDisplacement + amp) / (amp * 2)`. -/
def colorFactor (z amp : ℝ) : ℝ := (z + amp) / (amp * 2)

/-- Per-frame time advance of the wave field: `tRef.current += 1`. -/
def tick (t : ℝ) : ℝ := t + 1

/-- One sampled sphere point: `theta = acos(2u - 1)`, `phi = 2*PI*v`,
`r = RADIUS * cbrt(w)`, then cartesian coordinates from spherical. -/
def spherePoint (R u v w : ℝ) : ℝ × ℝ × ℝ :=
  let theta := Real.arccos (2 * u - 1)
  let phi := 2 * Real.pi * v
  let r := R * w ^ ((1 : ℝ) / 3)
  (r * Real.sin theta * Real.cos phi,
   r * Real.sin theta * Real.sin phi,
   r * Real.cos theta)

/-- The point-build loop: `P` points from a stream of uniform sample
triples `(u, v, w)`. -/
def buildPoints (R : ℝ) (samples : ℕ → ℝ × ℝ × ℝ) (P : ℕ) :
    List (ℝ × ℝ × ℝ) :=
  (List.range P).map fun i =>
    spherePoint R (samples i).1 (samples i).2.1 (samples i).2.2

/-- Euclidean norm of a 3D point. -/
def ptNorm (p : ℝ × ℝ × ℝ) : ℝ :=
  Real.sqrt (p.1 ^ 2 + p.2.1 ^ 2 + p.2.2 ^ 2)

/-- Point-cloud component state (the module-level `stateRef`). -/
structure CloudState where
  points : List (ℝ × ℝ × ℝ)
  radius : ℝ

/-- `updateSize`: set `RADIUS = Math.min(width, height) * 0.4`, then
rebuild all 1500 points with the new radius when the stored count is 0
or differs from 1500, otherwise keep the stored points. -/
def updateSize (newWidth newHeight : ℝ) (samples : ℕ → ℝ × ℝ × ℝ)
    (s : CloudState) : CloudState :=
  let radius := min newWidth newHeight * 0.4
  if s.points.length = 0 ∨ s.points.length ≠ 1500 then
    { points := buildPoints radius samples 1500, radius := radius }
  else
    { points := s.points, radius := radius }

/-- `project(p, rotY, rotX)`: rotation about the vertical axis, then
about the horizontal axis, then perspective division with camera depth
`depth` (500 in the small variants, `PERSPECTIVE_DEPTH = 2000` in the
ref variant); returns `(px, py, scale, z2)`. -/
def project (depth width height : ℝ) (p : ℝ × ℝ × ℝ) (rotY rotX : ℝ) :
    ℝ × ℝ × ℝ × ℝ :=
  let cosY := Real.cos rotY
  let sinY := Real.sin rotY
  let x := p.1 * cosY + p.2.2 * sinY
  let z := p.2.2 * cosY - p.1 * sinY
  let y := p.2.1
  let cosX := Real.cos rotX
  let sinX := Real.sin rotX
  let y2 := y * cosX - z * sinX
  let z2 := z * cosX + y * sinX
  let scale := depth / (depth + z2)
  (width / 2 + x * scale, height / 2 + y2 * scale, scale, z2)

end Struweg

section ClaimC2

open Struweg

lemma tracerLoop_xy (a b c d k : ℝ) (n : ℕ) (s : TracerState) :
    ((tracerLoop a b c d k n s).x, (tracerLoop a b c d k n s).y) =
      (dampedSubstepSpec a b c d k)^[n] (s.x, s.y) := by
  induction n generalizing s with
  | zero => simp [tracerLoop]
  | succ n ih =>
      have h : ((tracerSubstep a b c d k s).x, (tracerSubstep a b c d k s).y) =
          dampedSubstepSpec a b c d k (s.x, s.y) := by
        simp [tracerSubstep, dampedSubstepSpec, attractorTarget]
      rw [tracerLoop, ih, Function.iterate_succ_apply, h]

/-- Claim C2: `PathTracer.update` performs exactly 5 substeps, each
computing the direct-iteration target from the current state and moving
the fraction `k = speedFactor * (deltaTime / 16.666) / 5` toward it, for
every entity state, coefficients and deltaTime. -/
theorem pathTracer_update_is_five_damped_substeps
    (base a b c d deltaTime : ℝ) (s : TracerState) :
    ((PathTracer.update base a b c d deltaTime s).x,
     (PathTracer.update base a b c d deltaTime s).y) =
      (dampedSubstepSpec a b c d (base * (deltaTime / 16.666) / 5))^[5]
        (s.x, s.y) := by
  have h := tracerLoop_xy a b c d (base * (deltaTime / 16.666) / 5) 5 s
  simpa [PathTracer.update] using h

end ClaimC2

section ClaimC5

open Struweg

lemma target_mem_square (a b c d : ℝ) (p : ℝ × ℝ) :
    inSquare (attractorTarget a b c d p) := by
  have h1 := Real.neg_one_le_sin (a * p.2)
  have h2 := Real.sin_le_one (a * p.2)
  have h3 := Real.neg_one_le_cos (b * p.1)
  have h4 := Real.cos_le_one (b * p.1)
  have h5 := Real.neg_one_le_sin (c * p.1)
  have h6 := Real.sin_le_one (c * p.1)
  have h7 := Real.neg_one_le_cos (d * p.2)
  have h8 := Real.cos_le_one (d * p.2)
  exact ⟨by simp only [attractorTarget]; linarith,
         by simp only [attractorTarget]; linarith,
         by simp only [attractorTarget]; linarith,
         by simp only [attractorTarget]; linarith⟩

lemma convex_step_bounds {x t k : ℝ} (hx1 : -2 ≤ x) (hx2 : x ≤ 2)
    (ht1 : -2 ≤ t) (ht2 : t ≤ 2) (hk0 : 0 ≤ k) (hk1 : k ≤ 1) :
    -2 ≤ x + (t - x) * k ∧ x + (t - x) * k ≤ 2 := by
  constructor
  · nlinarith [mul_nonneg (sub_nonneg.2 hk1) (by linarith : (0 : ℝ) ≤ x + 2),
      mul_nonneg hk0 (by linarith : (0 : ℝ) ≤ t + 2)]
  · nlinarith [mul_nonneg (sub_nonneg.2 hk1) (by linarith : (0 : ℝ) ≤ 2 - x),
      mul_nonneg hk0 (by linarith : (0 : ℝ) ≤ 2 - t)]

lemma tracerSubstep_mem_square (a b c d k : ℝ) (s : TracerState)
    (hk0 : 0 ≤ k) (hk1 : k ≤ 1) (hs : inSquare (s.x, s.y)) :
    inSquare ((tracerSubstep a b c d k s).x, (tracerSubstep a b c d k s).y) := by
  obtain ⟨hx1, hx2, hy1, hy2⟩ := hs
  obtain ⟨ht1, ht2, ht3, ht4⟩ := target_mem_square a b c d (s.x, s.y)
  obtain ⟨hX1, hX2⟩ := convex_step_bounds hx1 hx2 ht1 ht2 hk0 hk1
  obtain ⟨hY1, hY2⟩ := convex_step_bounds hy1 hy2 ht3 ht4 hk0 hk1
  exact ⟨hX1, hX2, hY1, hY2⟩

lemma tracerLoop_mem_square (a b c d k : ℝ) (n : ℕ) (s : TracerState)
    (hk0 : 0 ≤ k) (hk1 : k ≤ 1) (hs : inSquare (s.x, s.y)) :
    inSquare ((tracerLoop a b c d k n s).x, (tracerLoop a b c d k n s).y) := by
  induction n generalizing s with
  | zero => simpa [tracerLoop] using hs
  | succ n ih =>
      rw [tracerLoop]
      exact ih _ (tracerSubstep_mem_square a b c d k s hk0 hk1 hs)

/-- Claim C5: the direct-iteration update (`AttractorCurve.update`)
always lands in `[-2,2] × [-2,2]`; a damped-integration substep with
fraction `k ∈ [0,1]` maps the square into itself; the initial tracer
positions (dispersion at most 2) and the curve start `(0.1, 0.1)` lie in
the square; hence a whole trajectory of `PathTracer.update` frames whose
per-frame fraction stays in `[0,1]` never leaves the square. -/
theorem chaotic_positions_stay_in_square :
    (∀ a b c d s, inSquare ((AttractorCurve.update a b c d s).x,
      (AttractorCurve.update a b c d s).y)) ∧
    (∀ a b c d k s, 0 ≤ k → k ≤ 1 → inSquare (s.x, s.y) →
      inSquare ((tracerSubstep a b c d k s).x, (tracerSubstep a b c d k s).y)) ∧
    (∀ disp index total, 0 ≤ disp → disp ≤ 2 →
      inSquare ((PathTracer.init disp index total).x,
        (PathTracer.init disp index total).y)) ∧
    inSquare ((0.1 : ℝ), (0.1 : ℝ)) ∧
    (∀ (coeffs : ℕ → ℝ × ℝ × ℝ × ℝ) (base : ℝ) (dts : ℕ → ℝ),
      (∀ n, 0 ≤ substepK base (dts n) ∧ substepK base (dts n) ≤ 1) →
      ∀ s, inSquare (s.x, s.y) →
      ∀ n, inSquare ((tracerTraj coeffs base dts s n).x,
        (tracerTraj coeffs base dts s n).y)) := by
  refine ⟨?_, ?_, ?_, ?_, ?_⟩
  · intro a b c d s
    have h := target_mem_square a b c d (s.x, s.y)
    simpa [AttractorCurve.update] using h
  · intro a b c d k s hk0 hk1 hs
    exact tracerSubstep_mem_square a b c d k s hk0 hk1 hs
  · intro disp index total h0 h2
    have hc1 := Real.neg_one_le_cos (index / total * Real.pi * 2)
    have hc2 := Real.cos_le_one (index / total * Real.pi * 2)
    have hs1 := Real.neg_one_le_sin (index / total * Real.pi * 2)
    have hs2 := Real.sin_le_one (index / total * Real.pi * 2)
    refine ⟨?_, ?_, ?_, ?_⟩ <;>
      simp only [PathTracer.init] <;> nlinarith
  · exact ⟨by norm_num, by norm_num, by norm_num, by norm_num⟩
  · intro coeffs base dts hk s hs n
    induction n with
    | zero => simpa [tracerTraj] using hs
    | succ n ih =>
        rw [tracerTraj]
        have hupd : PathTracer.update base (coeffs n).1 (coeffs n).2.1
            (coeffs n).2.2.1 (coeffs n).2.2.2 (dts n) (tracerTraj coeffs base dts s n) =
            tracerLoop (coeffs n).1 (coeffs n).2.1 (coeffs n).2.2.1 (coeffs n).2.2.2
              (substepK base (dts n)) 5 (tracerTraj coeffs base dts s n) := rfl
        rw [hupd]
        exact tracerLoop_mem_square _ _ _ _ _ 5 _ (hk n).1 (hk n).2 ih

/-- Claim C5 witness: a concrete three-frame trajectory with zero
coefficients and zero delta time, started at the origin, stays in the
square. -/
theorem chaotic_positions_stay_in_square_witness :
    inSquare ((tracerTraj (fun _ => (0, 0, 0, 0)) 0 (fun _ => 0) ⟨0, 0, 0, 0⟩ 3).x,
      (tracerTraj (fun _ => (0, 0, 0, 0)) 0 (fun _ => 0) ⟨0, 0, 0, 0⟩ 3).y) :=
  chaotic_positions_stay_in_square.2.2.2.2 (fun _ => (0, 0, 0, 0)) 0 (fun _ => 0)
    (fun n => by constructor <;> simp [substepK])
    ⟨0, 0, 0, 0⟩ ⟨by norm_num, by norm_num, by norm_num, by norm_num⟩ 3

end ClaimC5

section ClaimC9

open Struweg

/-- Claim C9 (counterexample): with delta time 0 — a held-fixed value the
claim quantifies over — every speed factor yields fraction `k = 0`, so
the post-substep distance to the target does not change at all: at zero
coefficients and state `(0,0)` (target `(-1,-1)`, distinct), speed
factors `1/2 < 1` both leave the distance equal, refuting strict
decrease even though `k` stays at most 1. -/
theorem speed_monotonicity_counterexample :
    0 < (1 / 2 : ℝ) ∧ (1 / 2 : ℝ) < 1 ∧ substepK 1 0 ≤ 1 ∧
    attractorTarget 0 0 0 0 (0, 0) ≠ ((0 : ℝ), (0 : ℝ)) ∧
    ¬ dist2 (attractorTarget 0 0 0 0 (0, 0))
        ((tracerSubstep 0 0 0 0 (substepK 1 0) ⟨0, 0, 0, 0⟩).x,
         (tracerSubstep 0 0 0 0 (substepK 1 0) ⟨0, 0, 0, 0⟩).y) <
      dist2 (attractorTarget 0 0 0 0 (0, 0))
        ((tracerSubstep 0 0 0 0 (substepK (1 / 2) 0) ⟨0, 0, 0, 0⟩).x,
         (tracerSubstep 0 0 0 0 (substepK (1 / 2) 0) ⟨0, 0, 0, 0⟩).y) := by
  refine ⟨by norm_num, by norm_num, by simp [substepK], ?_, ?_⟩
  · simp only [attractorTarget]
    intro h
    have h1 := congrArg Prod.fst h
    simp at h1
  · have hk1 : substepK 1 0 = 0 := by simp [substepK]
    have hk2 : substepK (1 / 2) 0 = 0 := by simp [substepK]
    rw [hk1, hk2]
    exact lt_irrefl _

/-- Claim C9 (amended): provided the held-fixed delta time is positive,
the Euclidean distance from the post-substep state to the
direct-iteration target strictly decreases as the speed factor
increases, over positive speed factors whose resulting fraction stays at
most 1, whenever the target is distinct from the state. -/
theorem dist_to_target_strict_anti_in_speed
    (a b c d x y dt s1 s2 : ℝ) (hdt : 0 < dt) (_hs1 : 0 < s1)
    (hs12 : s1 < s2) (hk2 : substepK s2 dt ≤ 1)
    (hne : attractorTarget a b c d (x, y) ≠ (x, y)) :
    dist2 (attractorTarget a b c d (x, y))
        ((tracerSubstep a b c d (substepK s2 dt) ⟨x, y, x, y⟩).x,
         (tracerSubstep a b c d (substepK s2 dt) ⟨x, y, x, y⟩).y) <
      dist2 (attractorTarget a b c d (x, y))
        ((tracerSubstep a b c d (substepK s1 dt) ⟨x, y, x, y⟩).x,
         (tracerSubstep a b c d (substepK s1 dt) ⟨x, y, x, y⟩).y) := by
  set T := attractorTarget a b c d (x, y) with hT
  have hdist : ∀ k : ℝ,
      dist2 T ((tracerSubstep a b c d k ⟨x, y, x, y⟩).x,
        (tracerSubstep a b c d k ⟨x, y, x, y⟩).y) =
      |1 - k| * Real.sqrt ((T.1 - x) ^ 2 + (T.2 - y) ^ 2) := by
    intro k
    have hstep : dist2 T ((tracerSubstep a b c d k ⟨x, y, x, y⟩).x,
        (tracerSubstep a b c d k ⟨x, y, x, y⟩).y) =
        Real.sqrt ((T.1 - (x + (T.1 - x) * k)) ^ 2 +
          (T.2 - (y + (T.2 - y) * k)) ^ 2) := rfl
    have hinner : (T.1 - (x + (T.1 - x) * k)) ^ 2 +
        (T.2 - (y + (T.2 - y) * k)) ^ 2 =
        (1 - k) ^ 2 * ((T.1 - x) ^ 2 + (T.2 - y) ^ 2) := by ring
    rw [hstep, hinner, Real.sqrt_mul (sq_nonneg _), Real.sqrt_sq_eq_abs]
  have hne2 : T.1 ≠ x ∨ T.2 ≠ y := by
    by_contra hcon
    push_neg at hcon
    exact hne (Prod.ext hcon.1 hcon.2)
  have hD : 0 < (T.1 - x) ^ 2 + (T.2 - y) ^ 2 := by
    rcases hne2 with h | h
    · have h0 : T.1 - x ≠ 0 := sub_ne_zero_of_ne h
      have hp : 0 < (T.1 - x) ^ 2 :=
        lt_of_le_of_ne (sq_nonneg _) (Ne.symm (pow_ne_zero 2 h0))
      linarith [sq_nonneg (T.2 - y)]
    · have h0 : T.2 - y ≠ 0 := sub_ne_zero_of_ne h
      have hp : 0 < (T.2 - y) ^ 2 :=
        lt_of_le_of_ne (sq_nonneg _) (Ne.symm (pow_ne_zero 2 h0))
      linarith [sq_nonneg (T.1 - x)]
  have hkmono : substepK s1 dt < substepK s2 dt := by
    simp only [substepK]
    have hq : 0 < dt / 16.666 := div_pos hdt (by norm_num)
    have hm := mul_lt_mul_of_pos_right hs12 hq
    exact (div_lt_div_iff_of_pos_right (by norm_num : (0 : ℝ) < 5)).2 hm
  have h1k2 : 0 ≤ 1 - substepK s2 dt := by linarith
  have h1k1 : 0 ≤ 1 - substepK s1 dt := by linarith
  rw [hdist, hdist, abs_of_nonneg h1k2, abs_of_nonneg h1k1]
  exact mul_lt_mul_of_pos_right (by linarith) (Real.sqrt_pos.2 hD)

/-- Claim C9 witness: at zero coefficients, state `(0,0)`, delta time
16.666 and speed factors `1/2 < 1`, the post-substep distance to the
target is strictly smaller for the larger speed factor. -/
theorem dist_to_target_strict_anti_in_speed_witness :
    0 < (16.666 : ℝ) ∧ 0 < (1 / 2 : ℝ) ∧ (1 / 2 : ℝ) < 1 ∧
    substepK 1 16.666 ≤ 1 ∧
    attractorTarget 0 0 0 0 (0, 0) ≠ ((0 : ℝ), (0 : ℝ)) ∧
    dist2 (attractorTarget 0 0 0 0 (0, 0))
        ((tracerSubstep 0 0 0 0 (substepK 1 16.666) ⟨0, 0, 0, 0⟩).x,
         (tracerSubstep 0 0 0 0 (substepK 1 16.666) ⟨0, 0, 0, 0⟩).y) <
      dist2 (attractorTarget 0 0 0 0 (0, 0))
        ((tracerSubstep 0 0 0 0 (substepK (1 / 2) 16.666) ⟨0, 0, 0, 0⟩).x,
         (tracerSubstep 0 0 0 0 (substepK (1 / 2) 16.666) ⟨0, 0, 0, 0⟩).y) := by
  have hne : attractorTarget 0 0 0 0 ((0 : ℝ), (0 : ℝ)) ≠ ((0 : ℝ), (0 : ℝ)) := by
    simp only [attractorTarget]
    intro h
    have h1 := congrArg Prod.fst h
    simp at h1
  refine ⟨by norm_num, by norm_num, by norm_num, ?_, hne, ?_⟩
  · simp only [substepK]
    norm_num
  · exact dist_to_target_strict_anti_in_speed 0 0 0 0 0 0 16.666 (1 / 2) 1
      (by norm_num) (by norm_num) (by norm_num)
      (by simp only [substepK]; norm_num) hne

end ClaimC9

section ClaimC4

open Struweg

lemma floor_between {E : ℝ} {lo hi : ℤ} (h1 : (lo : ℝ) ≤ E)
    (h2 : E < (hi : ℝ) + 1) : lo ≤ ⌊E⌋ ∧ ⌊E⌋ ≤ hi := by
  refine ⟨Int.le_floor.2 h1, ?_⟩
  have h3 : ⌊E⌋ < hi + 1 := Int.floor_lt.2 (by push_cast; linarith)
  omega

/-- Claim C4: for every `scrollDepth ∈ [0,1]` and `sessionTime ≥ 0`, the
symmetry count of each attractor variant is a positive integer at least
1, lying within 3 to 12 (the curve variant yields 3 to 5, the glow
tracer 4 to 8, the dots variant is locked to 8). -/
theorem symmetry_count_in_range (scrollDepth sessionTime : ℝ)
    (h0 : 0 ≤ scrollDepth) (h1 : scrollDepth ≤ 1) (ht : 0 ≤ sessionTime) :
    (1 ≤ symmetryCurve scrollDepth sessionTime ∧
     3 ≤ symmetryCurve scrollDepth sessionTime ∧
     symmetryCurve scrollDepth sessionTime ≤ 12) ∧
    (1 ≤ symmetryGlow scrollDepth sessionTime ∧
     3 ≤ symmetryGlow scrollDepth sessionTime ∧
     symmetryGlow scrollDepth sessionTime ≤ 12) ∧
    (1 ≤ symmetryDots ∧ 3 ≤ symmetryDots ∧ symmetryDots ≤ 12) := by
  have hm120 : 0 ≤ min (sessionTime / 120) 1 :=
    le_min (div_nonneg ht (by norm_num)) zero_le_one
  have hm120le : min (sessionTime / 120) 1 ≤ 1 := min_le_right _ _
  have hm60 : 0 ≤ min (sessionTime / 60) 1 :=
    le_min (div_nonneg ht (by norm_num)) zero_le_one
  have hm60le : min (sessionTime / 60) 1 ≤ 1 := min_le_right _ _
  have hcurve := @floor_between
    (3 + scrollDepth * 2 + min (sessionTime / 120) 1 * 0.1 * 2) 3 12
    (by push_cast; nlinarith) (by push_cast; nlinarith)
  have hglow := @floor_between
    (4 + scrollDepth * 4 + min (sessionTime / 60) 1 * 0.2 * 3) 3 12
    (by push_cast; nlinarith) (by push_cast; nlinarith)
  refine ⟨⟨?_, hcurve.1, hcurve.2⟩, ⟨?_, hglow.1, hglow.2⟩,
    by norm_num [symmetryDots], by norm_num [symmetryDots],
    by norm_num [symmetryDots]⟩
  · have := hcurve.1
    simp only [symmetryCurve] at this ⊢
    omega
  · have := hglow.1
    simp only [symmetryGlow] at this ⊢
    omega

/-- Claim C4 witness: at `scrollDepth = 0`, `sessionTime = 0` all three
symmetry counts are integers between 1 and 12. -/
theorem symmetry_count_in_range_witness :
    (1 ≤ symmetryCurve 0 0 ∧ 3 ≤ symmetryCurve 0 0 ∧ symmetryCurve 0 0 ≤ 12) ∧
    (1 ≤ symmetryGlow 0 0 ∧ 3 ≤ symmetryGlow 0 0 ∧ symmetryGlow 0 0 ≤ 12) ∧
    (1 ≤ symmetryDots ∧ 3 ≤ symmetryDots ∧ symmetryDots ≤ 12) :=
  symmetry_count_in_range 0 0 (by norm_num) (by norm_num) (by norm_num)

end ClaimC4

section ClaimC6

open Struweg

/-- Claim C6 (counterexample): the computed scroll depth is not always
at most 1 over the claimed domain — with `scrollTop = 10 ≥ 0`,
`scrollHeight = 6`, `clientHeight = 1` the handler returns
`10 / 5 = 2 > 1` (no clamping exists in the code). -/
theorem scrollDepth_exceeds_one_counterexample :
    (0 : ℝ) ≤ 10 ∧ scrollDepthOf 10 6 1 = 2 ∧ ¬ scrollDepthOf 10 6 1 ≤ 1 := by
  have h : scrollDepthOf 10 6 1 = 2 := by
    simp only [scrollDepthOf]
    rw [if_pos (by norm_num : (6 : ℝ) - 1 > 0)]
    norm_num
  exact ⟨by norm_num, h, by rw [h]; norm_num⟩

/-- Claim C6 (amended): for `scrollTop ≥ 0` that does not exceed the
scrollable height `scrollHeight - clientHeight` (the browser invariant),
the handler returns `scrollTop / (scrollHeight - clientHeight)` when
that height is positive and 0 otherwise (never NaN), and the result lies
in `[0, 1]`; without the upper bound on `scrollTop` only `0 ≤ result`
holds. -/
theorem scrollDepth_formula_and_range
    (scrollTop scrollHeight clientHeight : ℝ) (h0 : 0 ≤ scrollTop)
    (hmax : scrollTop ≤ scrollHeight - clientHeight) :
    (scrollHeight - clientHeight > 0 →
      scrollDepthOf scrollTop scrollHeight clientHeight =
        scrollTop / (scrollHeight - clientHeight)) ∧
    (¬ scrollHeight - clientHeight > 0 →
      scrollDepthOf scrollTop scrollHeight clientHeight = 0) ∧
    0 ≤ scrollDepthOf scrollTop scrollHeight clientHeight ∧
    scrollDepthOf scrollTop scrollHeight clientHeight ≤ 1 := by
  simp only [scrollDepthOf]
  by_cases h : scrollHeight - clientHeight > 0
  · rw [if_pos h]
    exact ⟨fun _ => rfl, fun hc => absurd h hc, div_nonneg h0 h.le,
      (div_le_one h).2 hmax⟩
  · rw [if_neg h]
    exact ⟨fun hc => absurd hc h, fun _ => rfl, le_refl 0, zero_le_one⟩

/-- Claim C6 witness: a non-scrollable page (`scrollHeight = 1`,
`clientHeight = 1`) with `scrollTop = 0` yields scroll depth 0, within
`[0, 1]`. -/
theorem scrollDepth_formula_and_range_witness :
    (¬ (1 : ℝ) - 1 > 0 → scrollDepthOf 0 1 1 = 0) ∧
    0 ≤ scrollDepthOf 0 1 1 ∧ scrollDepthOf 0 1 1 ≤ 1 :=
  ⟨(scrollDepth_formula_and_range 0 1 1 (by norm_num) (by norm_num)).2.1,
   (scrollDepth_formula_and_range 0 1 1 (by norm_num) (by norm_num)).2.2.1,
   (scrollDepth_formula_and_range 0 1 1 (by norm_num) (by norm_num)).2.2.2⟩

end ClaimC6

section ClaimC3

open Struweg

/-- Claim C3: for every grid index pair `(i, j)` of the 80×80 grid and
all frequency, amplitude and time values, the wave-field kernel computes
`z = A*(sin(dx*0.05*f + t*0.05) + cos(dy*0.05*f + t*0.03) +
sin((dx+dy)*0.02*f + t*0.07))` with `dx = (i-40)*cellSize`,
`dy = (j-40)*cellSize`, `cellSize = min(width,height)/80*0.8`; the color
factor equals `(z+A)/(2A)`; and time advances by exactly 1 per frame.
Stated for all natural indices, hence total over the grid. -/
theorem wave_field_kernel_formula (i j : ℕ) (width height freq amp t : ℝ) :
    waveZ (i : ℝ) (j : ℝ) (cellOf width height) freq amp t =
      amp * (Real.sin (((i : ℝ) - 40) * (min width height / 80 * 0.8) * 0.05 * freq
          + t * 0.05) +
        Real.cos (((j : ℝ) - 40) * (min width height / 80 * 0.8) * 0.05 * freq
          + t * 0.03) +
        Real.sin ((((i : ℝ) - 40) * (min width height / 80 * 0.8) +
            ((j : ℝ) - 40) * (min width height / 80 * 0.8)) * 0.02 * freq
          + t * 0.07)) ∧
    colorFactor (waveZ (i : ℝ) (j : ℝ) (cellOf width height) freq amp t) amp =
      (waveZ (i : ℝ) (j : ℝ) (cellOf width height) freq amp t + amp) / (2 * amp) ∧
    tick t = t + 1 := by
  refine ⟨?_, ?_, rfl⟩
  · simp only [waveZ, cellOf, GRID_SIZE]
    norm_num
    ring_nf
  · simp only [colorFactor]
    ring

end ClaimC3

section ClaimC7

open Struweg

lemma ptNorm_spherePoint (R u v w : ℝ) (hR : 0 ≤ R) (hw : 0 ≤ w) :
    ptNorm (spherePoint R u v w) = R * w ^ ((1 : ℝ) / 3) := by
  have hr : 0 ≤ R * w ^ ((1 : ℝ) / 3) :=
    mul_nonneg hR (Real.rpow_nonneg hw _)
  have h1 := Real.sin_sq_add_cos_sq (Real.arccos (2 * u - 1))
  have h2 := Real.sin_sq_add_cos_sq (2 * Real.pi * v)
  have hstep : ptNorm (spherePoint R u v w) =
      Real.sqrt ((R * w ^ ((1 : ℝ) / 3) * Real.sin (Real.arccos (2 * u - 1)) *
          Real.cos (2 * Real.pi * v)) ^ 2 +
        (R * w ^ ((1 : ℝ) / 3) * Real.sin (Real.arccos (2 * u - 1)) *
          Real.sin (2 * Real.pi * v)) ^ 2 +
        (R * w ^ ((1 : ℝ) / 3) * Real.cos (Real.arccos (2 * u - 1))) ^ 2) := rfl
  have hsum : (R * w ^ ((1 : ℝ) / 3) * Real.sin (Real.arccos (2 * u - 1)) *
      Real.cos (2 * Real.pi * v)) ^ 2 +
      (R * w ^ ((1 : ℝ) / 3) * Real.sin (Real.arccos (2 * u - 1)) *
        Real.sin (2 * Real.pi * v)) ^ 2 +
      (R * w ^ ((1 : ℝ) / 3) * Real.cos (Real.arccos (2 * u - 1))) ^ 2 =
      (R * w ^ ((1 : ℝ) / 3)) ^ 2 := by
    linear_combination ((R * w ^ ((1 : ℝ) / 3)) ^ 2 *
        Real.sin (Real.arccos (2 * u - 1)) ^ 2) * h2 +
      (R * w ^ ((1 : ℝ) / 3)) ^ 2 * h1
  rw [hstep, hsum, Real.sqrt_sq hr]

/-- Claim C7: for every radius `R > 0` and every stream of uniform
samples with third component `w ∈ [0, 1]`, the generator produces
exactly `P` points (in particular 1500 and, in the small-canvas variant,
1000), every generated point has Euclidean norm exactly
`r = R * cbrt(w)`, and hence norm at most `R`. -/
theorem sphere_points_count_and_bound (R : ℝ) (hR : 0 < R)
    (samples : ℕ → ℝ × ℝ × ℝ)
    (hw : ∀ i, 0 ≤ (samples i).2.2 ∧ (samples i).2.2 ≤ 1) :
    (buildPoints R samples 1500).length = 1500 ∧
    (buildPoints R samples 1000).length = 1000 ∧
    (∀ i, ptNorm (spherePoint R (samples i).1 (samples i).2.1
        (samples i).2.2) = R * (samples i).2.2 ^ ((1 : ℝ) / 3)) ∧
    (∀ P : ℕ, ∀ p ∈ buildPoints R samples P, ptNorm p ≤ R) := by
  refine ⟨by simp [buildPoints], by simp [buildPoints], ?_, ?_⟩
  · intro i
    exact ptNorm_spherePoint R _ _ _ hR.le (hw i).1
  · intro P p hp
    simp only [buildPoints, List.mem_map, List.mem_range] at hp
    obtain ⟨i, _, rfl⟩ := hp
    rw [ptNorm_spherePoint R _ _ _ hR.le (hw i).1]
    have hle : (samples i).2.2 ^ ((1 : ℝ) / 3) ≤ 1 :=
      Real.rpow_le_one (hw i).1 (hw i).2 (by norm_num)
    calc R * (samples i).2.2 ^ ((1 : ℝ) / 3) ≤ R * 1 :=
          mul_le_mul_of_nonneg_left hle hR.le
      _ = R := mul_one R

/-- Claim C7 witness: with `R = 1` and the constant zero sample stream,
the build produces 1500 and 1000 points, each of norm `1 * 0^(1/3) ≤ 1`. -/
theorem sphere_points_count_and_bound_witness :
    (buildPoints 1 (fun _ => (0, 0, 0)) 1500).length = 1500 ∧
    (buildPoints 1 (fun _ => (0, 0, 0)) 1000).length = 1000 ∧
    (∀ P : ℕ, ∀ p ∈ buildPoints 1 (fun _ => (0, 0, 0)) P, ptNorm p ≤ 1) := by
  have h := sphere_points_count_and_bound 1 (by norm_num) (fun _ => (0, 0, 0))
    (fun i => ⟨le_refl 0, zero_le_one⟩)
  exact ⟨h.1, h.2.1, h.2.2.2⟩

end ClaimC7

section ClaimC8

open Struweg

/-- Claim C8: on resize the radius becomes
`min(newWidth, newHeight) * 0.4`; the point set is kept whole when its
size is already 1500 and otherwise discarded and fully regenerated to
1500 fresh points (built with the new radius) — never partially
updated. -/
theorem resize_all_or_nothing (newWidth newHeight : ℝ)
    (samples : ℕ → ℝ × ℝ × ℝ) (s : CloudState) :
    (updateSize newWidth newHeight samples s).radius =
      min newWidth newHeight * 0.4 ∧
    (s.points.length = 1500 →
      (updateSize newWidth newHeight samples s).points = s.points) ∧
    (s.points.length ≠ 1500 →
      (updateSize newWidth newHeight samples s).points =
        buildPoints (min newWidth newHeight * 0.4) samples 1500 ∧
      (updateSize newWidth newHeight samples s).points.length = 1500) := by
  by_cases h : s.points.length = 1500
  · have hne : s.points ≠ [] := by
      intro he
      rw [he] at h
      simp at h
    exact ⟨by simp [updateSize, h, hne], fun _ => by simp [updateSize, h, hne],
      fun hc => absurd h hc⟩
  · exact ⟨by simp [updateSize, h], fun hc => absurd hc h,
      fun _ => ⟨by simp [updateSize, h], by simp [updateSize, h, buildPoints]⟩⟩

/-- Claim C8 witness: resizing with an empty point store regenerates the
full 1500-point set and sets the radius to `min 10 10 * 0.4`. -/
theorem resize_all_or_nothing_witness :
    (updateSize 10 10 (fun _ => (0, 0, 0)) ⟨[], 0⟩).radius =
      min (10 : ℝ) 10 * 0.4 ∧
    (updateSize 10 10 (fun _ => (0, 0, 0)) ⟨[], 0⟩).points.length = 1500 :=
  ⟨(resize_all_or_nothing 10 10 (fun _ => (0, 0, 0)) ⟨[], 0⟩).1,
   ((resize_all_or_nothing 10 10 (fun _ => (0, 0, 0)) ⟨[], 0⟩).2.2
      (by simp)).2⟩

end ClaimC8

section ClaimC10

open Struweg

/-- Claim C10: the projector's two sequential axis rotations preserve
the Euclidean norm, so the rotated depth satisfies `|z2| ≤ |p|`; hence
for every point with `|p| < depth` and all rotation angles the
perspective denominator `depth + z2` is strictly positive and the
returned scale is positive (no division by zero); and for `|p| ≥ depth`
no guard exists — a point with `|p| = depth` can make the denominator
exactly 0. -/
theorem project_depth_bounded_and_scale_pos (depth width height : ℝ)
    (hdepth : 0 < depth) (p : ℝ × ℝ × ℝ) (rotY rotX : ℝ) :
    |(project depth width height p rotY rotX).2.2.2| ≤ ptNorm p ∧
    (ptNorm p < depth →
      0 < depth + (project depth width height p rotY rotX).2.2.2 ∧
      0 < (project depth width height p rotY rotX).2.2.1) ∧
    (∃ q : ℝ × ℝ × ℝ, ∃ rY rX : ℝ, depth ≤ ptNorm q ∧
      depth + (project depth width height q rY rX).2.2.2 = 0) := by
  have hz2 : (project depth width height p rotY rotX).2.2.2 =
      (p.2.2 * Real.cos rotY - p.1 * Real.sin rotY) * Real.cos rotX +
        p.2.1 * Real.sin rotX := rfl
  have hscale : (project depth width height p rotY rotX).2.2.1 =
      depth / (depth +
        ((p.2.2 * Real.cos rotY - p.1 * Real.sin rotY) * Real.cos rotX +
          p.2.1 * Real.sin rotX)) := rfl
  have hY := Real.sin_sq_add_cos_sq rotY
  have hX := Real.sin_sq_add_cos_sq rotX
  have hkey : (p.1 * Real.cos rotY + p.2.2 * Real.sin rotY) ^ 2 +
      (p.2.1 * Real.cos rotX -
        (p.2.2 * Real.cos rotY - p.1 * Real.sin rotY) * Real.sin rotX) ^ 2 +
      ((p.2.2 * Real.cos rotY - p.1 * Real.sin rotY) * Real.cos rotX +
        p.2.1 * Real.sin rotX) ^ 2 =
      p.1 ^ 2 + p.2.1 ^ 2 + p.2.2 ^ 2 := by
    linear_combination (p.1 ^ 2 + p.2.2 ^ 2) * hY +
      (p.2.1 ^ 2 + (p.2.2 * Real.cos rotY - p.1 * Real.sin rotY) ^ 2) * hX
  have hz2sq : ((p.2.2 * Real.cos rotY - p.1 * Real.sin rotY) * Real.cos rotX +
      p.2.1 * Real.sin rotX) ^ 2 ≤ p.1 ^ 2 + p.2.1 ^ 2 + p.2.2 ^ 2 := by
    nlinarith [sq_nonneg (p.1 * Real.cos rotY + p.2.2 * Real.sin rotY),
      sq_nonneg (p.2.1 * Real.cos rotX -
        (p.2.2 * Real.cos rotY - p.1 * Real.sin rotY) * Real.sin rotX)]
  have habs : |(project depth width height p rotY rotX).2.2.2| ≤ ptNorm p := by
    rw [hz2]
    have h1 : |(p.2.2 * Real.cos rotY - p.1 * Real.sin rotY) * Real.cos rotX +
        p.2.1 * Real.sin rotX| =
        Real.sqrt (((p.2.2 * Real.cos rotY - p.1 * Real.sin rotY) * Real.cos rotX +
          p.2.1 * Real.sin rotX) ^ 2) := (Real.sqrt_sq_eq_abs _).symm
    rw [h1]
    exact Real.sqrt_le_sqrt hz2sq
  refine ⟨habs, ?_, ?_⟩
  · intro hlt
    have hb : |(project depth width height p rotY rotX).2.2.2| < depth :=
      lt_of_le_of_lt habs hlt
    obtain ⟨hb1, hb2⟩ := abs_lt.mp hb
    constructor
    · linarith
    · rw [hscale]
      rw [hz2] at hb1
      exact div_pos hdepth (by linarith)
  · refine ⟨(0, 0, -depth), 0, 0, ?_, ?_⟩
    · have : ptNorm ((0 : ℝ), (0 : ℝ), -depth) = depth := by
        simp only [ptNorm]
        rw [show ((0 : ℝ) ^ 2 + 0 ^ 2 + (-depth) ^ 2) = depth ^ 2 by ring]
        exact Real.sqrt_sq hdepth.le
      rw [this]
    · have hq : (project depth width height ((0 : ℝ), (0 : ℝ), -depth) 0 0).2.2.2 =
          (-depth * Real.cos 0 - 0 * Real.sin 0) * Real.cos 0 + 0 * Real.sin 0 := rfl
      rw [hq]
      simp

/-- Claim C10 witness: with camera depth 2000 and the origin point
(norm 0 < 2000), the denominator and the scale are positive. -/
theorem project_depth_bounded_and_scale_pos_witness :
    0 < (2000 : ℝ) ∧ ptNorm ((0 : ℝ), (0 : ℝ), (0 : ℝ)) < 2000 ∧
    0 < 2000 + (project 2000 0 0 ((0 : ℝ), (0 : ℝ), (0 : ℝ)) 0 0).2.2.2 ∧
    0 < (project 2000 0 0 ((0 : ℝ), (0 : ℝ), (0 : ℝ)) 0 0).2.2.1 := by
  have hn : ptNorm ((0 : ℝ), (0 : ℝ), (0 : ℝ)) < 2000 := by
    simp only [ptNorm]
    rw [show ((0 : ℝ) ^ 2 + 0 ^ 2 + 0 ^ 2) = 0 by ring, Real.sqrt_zero]
    norm_num
  have h := (project_depth_bounded_and_scale_pos 2000 0 0 (by norm_num)
    ((0 : ℝ), (0 : ℝ), (0 : ℝ)) 0 0).2.1 hn
  exact ⟨by norm_num, hn, h.1, h.2⟩

end ClaimC10

section ClaimC1

open Struweg

/-- Claim C1 (counterexample): with `scrollDepth = 0`, `sessionTime = 0`
and absolute time 0, the curve variant does NOT return exactly the base
constants `(1.4, -2.3, 2.4, -2.1)`: its `d` coefficient is
`-2.1 + cos 0 * 0.08 = -2.02`. -/
theorem curveCoeffs_base_counterexample :
    curveCoeffs 0 0 0 ≠ ((1.4 : ℝ), (-2.3 : ℝ), (2.4 : ℝ), (-2.1 : ℝ)) := by
  intro h
  have hd := congrArg (fun q : ℝ × ℝ × ℝ × ℝ => q.2.2.2) h
  simp only [curveCoeffs] at hd
  norm_num at hd

/-- Claim C1 (amended): at `scrollDepth = 0, sessionTime = 0` the scroll
and session contributions vanish, so `b` and `c` equal their bases
exactly while `a` and `d` equal base plus their absolute-time
oscillation terms; at `scrollDepth = 1, sessionTime = 60` the shader
variant reaches its full documented offsets (`b = -2.2`, `c = 2.25`)
while the curve variant reaches only half its maximum session offset
(`b = -2.25`, divisor 120) and `c = 2.36`; in both variants `a` and `d`
always carry the oscillation terms. -/
theorem coeffs_base_plus_oscillation (time : ℝ) :
    curveCoeffs 0 0 time =
      (1.4 + Real.sin time * 0.05, -2.3, 2.4,
       -2.1 + Real.cos (time * 0.8) * 0.08) ∧
    curveCoeffs 1 60 time =
      (1.6 + Real.sin time * 0.05, -2.25, 2.36,
       -2.1 + Real.cos (time * 0.8) * 0.08) ∧
    shaderCoeffs 0 (shaderSession 0) time =
      (1.4 + Real.sin (time * 0.5) * 0.05, -2.3, 2.4,
       -2.1 + Real.cos (time * 0.3) * 0.08) ∧
    shaderCoeffs 1 (shaderSession 60) time =
      (1.6 + Real.sin (time * 0.5) * 0.05, -2.2, 2.25,
       -2.1 + Real.cos (time * 0.3) * 0.08) := by
  refine ⟨?_, ?_, ?_, ?_⟩
  · simp only [curveCoeffs]
    norm_num
  · simp only [curveCoeffs]
    rw [show min ((60 : ℝ) / 120) 1 = 1 / 2 by norm_num]
    norm_num
  · simp only [shaderCoeffs, shaderSession]
    rw [show min ((0 : ℝ) / 60) 1 = 0 by norm_num]
    norm_num
  · simp only [shaderCoeffs, shaderSession]
    rw [show min ((60 : ℝ) / 60) 1 = 1 by norm_num]
    norm_num

end ClaimC1
